import Mathlib

/-!
Verification of `uta/tools/transcriptmapper.py`: the alignment-operation
(cigar) builder `build_tx_cigar` and the `TranscriptMapper` class with its
six coordinate-conversion operations.

The interval mapper (`uta.tools.intervalmapper`) and the exception class
(`uta.exceptions.UTAError`) are collaborators whose code is outside the
repository snapshot; they are modelled from the spec as an abstract
interface record and a message-carrying error value.  Python exceptions
become `Except`, in-place mutation of the exon list becomes an explicit
post-state function.
-/

namespace Uta

/-- The apostrophe character, used in the error messages of the source. -/
def apos : String := String.singleton (Char.ofNat 39)

/-- The character class `[DIMNX]` of the cigar-element regex
`\d+[DIMNX]` in `build_tx_cigar`. -/
def isCigarOp (c : Char) : Bool :=
  c = 'D' || c = 'I' || c = 'M' || c = 'N' || c = 'X'

/-- `re.findall` of the pattern "one or more digits followed by a
`[DIMNX]` operation letter", scanning left to right over the characters,
skipping characters that start no match.  The first argument accumulates
the pending run of digits, most recent first. -/
def cigarFindAllAux : List Char → List Char → List (List Char)
  | _, [] => []
  | ds, c :: rest =>
    if c.isDigit then
      cigarFindAllAux (c :: ds) rest
    else if isCigarOp c && !ds.isEmpty then
      (ds.reverse ++ [c]) :: cigarFindAllAux [] rest
    else
      cigarFindAllAux [] rest

/-- The list of `<length><op>` tokens of a cigar string:
`cigarelem_re.findall(c)` for `cigarelem_re = re.compile('\d+[DIMNX]')`. -/
def cigarTokens (c : String) : List (List Char) :=
  cigarFindAllAux [] c.data

/-- `_reverse_cigar` of the source: join the found tokens in reversed
order (`''.join(reversed(cigarelem_re.findall(c)))`). -/
def reverse_cigar (c : String) : String :=
  String.mk ((cigarTokens c).reverse).flatten

/-- One exon-alignment record, a row of `tx_exons`: ordinal, transcript
start/end, genomic start/end, and the per-exon cigar string. -/
structure Exon where
  ord : Int
  t_start_i : Int
  t_end_i : Int
  g_start_i : Int
  g_end_i : Int
  g_cigar : String
  deriving Inhabited, DecidableEq

/-- The mutation loop of `build_tx_cigar`: when `strand == -1` every
exon record's `g_cigar` is replaced by its reversed cigar; otherwise the
records are untouched. -/
def mutate_exons (exons : List Exon) (strand : Int) : List Exon :=
  if strand = -1 then
    exons.map (fun e => { e with g_cigar := reverse_cigar e.g_cigar })
  else
    exons

/-- The loop `for i in range(1, len(exons))` of `build_tx_cigar`: given
the previous exon and the remaining exons, append for each remaining exon
the intron gap token `str(g_start_i - prev.g_end_i) + 'N'` and then that
exon's cigar string. -/
def tx_cigar_tail : Exon → List Exon → String
  | _, [] => ""
  | prev, e :: rest =>
    toString (e.g_start_i - prev.g_end_i) ++ "N" ++ e.g_cigar ++ tx_cigar_tail e rest

/-- `build_tx_cigar(exons, strand)`: `None` on an empty exon list;
otherwise (after the strand `-1` in-place reversal, here applied by
`mutate_exons`) the first exon's cigar followed by intron-gap/exon-cigar
pairs for every later exon. -/
def build_tx_cigar (exons : List Exon) (strand : Int) : Option String :=
  match mutate_exons exons strand with
  | [] => none
  | e :: rest => some (e.g_cigar ++ tx_cigar_tail e rest)

/-- The state of the caller-supplied exon list after `build_tx_cigar`
returns: the source mutates the records in place (only past the
empty-list early return, where `mutate_exons` is the identity anyway). -/
def build_tx_cigar_post (exons : List Exon) (strand : Int) : List Exon :=
  if exons.length = 0 then exons else mutate_exons exons strand

/-- Transcript metadata, a row of `get_tx_info`: strand, CDS bounds, and
descriptive fields unused by the conversion logic. -/
structure TxInfo where
  strand : Int
  cds_start_i : Int
  cds_end_i : Int
  gene : String
  descr : String
  summary : String

/-- Modelled from the spec: the external Interval Mapper interface —
`target_length`, and the two directional interval maps, each taking a
`(start, end)` pair and the extension flag (`max_extent` in the source).
Its internals (`uta.tools.intervalmapper`) are outside the repository
snapshot and are not needed by any claim, so an instance is an abstract
record of its observable operations. -/
structure IntervalMapper where
  tgt_len : Int
  map_ref_to_tgt : Int → Int → Bool → Int × Int
  map_tgt_to_ref : Int → Int → Bool → Int × Int

/-- The external data provider: the two read operations the constructor
calls, `get_tx_info(ac)` and `get_tx_exons(ac, ref)`. -/
structure DB where
  get_tx_info : String → Option TxInfo
  get_tx_exons : String → String → List Exon

/-- Modelled from the spec: `uta.exceptions.UTAError`, the single
exception class the source raises; it carries its message. -/
inductive UTAError where
  | mk (msg : String)
  deriving DecidableEq

/-- The message of the exception raised when construction fails:
`"Couldn't build TranscriptMapper(ref={self.ref},ac={self.ac})"` after
formatting. -/
def constructionErrorMsg (ref ac : String) : String :=
  "Couldn" ++ apos ++ "t build TranscriptMapper(ref=" ++ ref ++ ",ac=" ++ ac ++ ")"

/-- The message of the exception raised on the strand fall-through branch
of `g_to_r`. -/
def strandErrorMsgGR : String :=
  "Code fell through strand check; shouldn" ++ apos ++ "t ever get here."

/-- The message of the exception raised on the strand fall-through branch
of `r_to_g`. -/
def strandErrorMsgRG : String :=
  "Code fell through strand check; shouldn" ++ apos ++ "t be here."

/-- The state a constructed `TranscriptMapper` instance holds: reference
name, accession, the fetched info and exon records (the latter as left
after `build_tx_cigar`'s in-place reversal), strand, CDS bounds, genomic
offset, the built cigar and the interval mapper made from it. -/
structure TranscriptMapper where
  ref : String
  ac : String
  tx_info : TxInfo
  tx_exons : List Exon
  strand : Int
  cds_start_i : Int
  cds_end_i : Int
  gc_offset : Int
  cigar : String
  im : IntervalMapper

/-- `TranscriptMapper.__init__(db, ac, ref)`: fetch info and exons,
raise `UTAError` when the info is absent or the exon list empty,
otherwise record strand, CDS bounds, `gc_offset = tx_exons[0].g_start_i`,
build the cigar and initialize the interval mapper from it
(`IntervalMapper.from_cigar`, passed in as `from_cigar` since its code is
external). -/
def TranscriptMapper.init (from_cigar : String → IntervalMapper)
    (db : DB) (ac : String) (ref : String) : Except UTAError TranscriptMapper :=
  match db.get_tx_info ac with
  | none => .error (UTAError.mk (constructionErrorMsg ref ac))
  | some ti =>
    match db.get_tx_exons ac ref with
    | [] => .error (UTAError.mk (constructionErrorMsg ref ac))
    | e0 :: rest =>
      let exons := e0 :: rest
      let cigar := (build_tx_cigar exons ti.strand).getD ""
      .ok { ref := ref
            ac := ac
            tx_info := ti
            tx_exons := build_tx_cigar_post exons ti.strand
            strand := ti.strand
            cds_start_i := ti.cds_start_i
            cds_end_i := ti.cds_end_i
            gc_offset := e0.g_start_i
            cigar := cigar
            im := from_cigar cigar }

/-- `g_to_r(gs, ge)`: map `(gs - gc_offset, ge - gc_offset)` reference→
target with `max_extent=False`, return it on strand `+1`, reflect it
through `tgt_len` on strand `-1`, raise on any other strand. -/
def TranscriptMapper.g_to_r (tm : TranscriptMapper) (gs ge : Int) :
    Except UTAError (Int × Int) :=
  let p := tm.im.map_ref_to_tgt (gs - tm.gc_offset) (ge - tm.gc_offset) false
  if tm.strand = 1 then
    .ok (p.1, p.2)
  else if tm.strand = -1 then
    .ok (tm.im.tgt_len - p.2, tm.im.tgt_len - p.1)
  else
    .error (UTAError.mk strandErrorMsgGR)

/-- `r_to_g(rs, re)`: take `(rs, re)` on strand `+1`, its reflection
through `tgt_len` on strand `-1` (raise on any other strand), map it
target→reference with `max_extent=False`, and add `gc_offset` back to
both bounds. -/
def TranscriptMapper.r_to_g (tm : TranscriptMapper) (rs re : Int) :
    Except UTAError (Int × Int) := do
  let frs_fre ←
    if tm.strand = 1 then
      pure (rs, re)
    else if tm.strand = -1 then
      pure (tm.im.tgt_len - re, tm.im.tgt_len - rs)
    else
      Except.error (UTAError.mk strandErrorMsgRG)
  let p := tm.im.map_tgt_to_ref frs_fre.1 frs_fre.2 false
  pure (p.1 + tm.gc_offset, p.2 + tm.gc_offset)

/-- `r_to_c(rs, re)`: subtract `cds_start_i` from both bounds. -/
def TranscriptMapper.r_to_c (tm : TranscriptMapper) (rs re : Int) : Int × Int :=
  (rs - tm.cds_start_i, re - tm.cds_start_i)

/-- `c_to_r(cs, ce)`: add `cds_start_i` to both bounds. -/
def TranscriptMapper.c_to_r (tm : TranscriptMapper) (cs ce : Int) : Int × Int :=
  (cs + tm.cds_start_i, ce + tm.cds_start_i)

/-- `g_to_c(gs, ge) = r_to_c(*g_to_r(gs, ge))`. -/
def TranscriptMapper.g_to_c (tm : TranscriptMapper) (gs ge : Int) :
    Except UTAError (Int × Int) := do
  let rr ← tm.g_to_r gs ge
  pure (tm.r_to_c rr.1 rr.2)

/-- `c_to_g(cs, ce) = r_to_g(*c_to_r(cs, ce))`. -/
def TranscriptMapper.c_to_g (tm : TranscriptMapper) (cs ce : Int) :
    Except UTAError (Int × Int) :=
  let rr := tm.c_to_r cs ce
  tm.r_to_g rr.1 rr.2

/-! Concrete fixtures used by witnesses and counterexamples: the two
exons of the spec example (genomic spans `[100,150)` and `[200,260)`),
an overlapping second exon, transcript records with strand `+1`, `-1`
and the invalid strand `0`, a trivial interval mapper, and data
providers returning them. -/

/-- Exon 1 of the spec example: genomic span `[100,150)`. -/
def exonA : Exon :=
  { ord := 1, t_start_i := 0, t_end_i := 50, g_start_i := 100, g_end_i := 150,
    g_cigar := "50M" }

/-- Exon 2 of the spec example: genomic span `[200,260)`. -/
def exonB : Exon :=
  { ord := 2, t_start_i := 50, t_end_i := 110, g_start_i := 200, g_end_i := 260,
    g_cigar := "60M" }

/-- A second exon overlapping `exonA`: genomic span `[140,200)` starts
before `exonA` ends. -/
def exonOverlap : Exon :=
  { ord := 2, t_start_i := 50, t_end_i := 110, g_start_i := 140, g_end_i := 200,
    g_cigar := "60M" }

/-- Transcript info with strand `+1` and CDS `[10,100)`. -/
def tiPlus : TxInfo :=
  { strand := 1, cds_start_i := 10, cds_end_i := 100, gene := "G1", descr := "", summary := "" }

/-- Transcript info whose provider-supplied strand is the invalid value `0`. -/
def tiZero : TxInfo :=
  { strand := 0, cds_start_i := 10, cds_end_i := 100, gene := "G1", descr := "", summary := "" }

/-- A trivial interval-mapper factory: identity maps, target length 110. -/
def fcTriv : String → IntervalMapper :=
  fun _ =>
    { tgt_len := 110
      map_ref_to_tgt := fun a b _ => (a, b)
      map_tgt_to_ref := fun a b _ => (a, b) }

/-- Provider returning `tiPlus` and the two example exons. -/
def dbPlus : DB :=
  { get_tx_info := fun _ => some tiPlus, get_tx_exons := fun _ _ => [exonA, exonB] }

/-- Provider returning strand `0` info and the two example exons. -/
def dbZero : DB :=
  { get_tx_info := fun _ => some tiZero, get_tx_exons := fun _ _ => [exonA, exonB] }

/-- Provider whose exon lookup returns the empty list. -/
def dbEmpty : DB :=
  { get_tx_info := fun _ => some tiPlus, get_tx_exons := fun _ _ => [] }

/-- The mapper `TranscriptMapper.init fcTriv dbPlus "NM_1" "R1"` builds. -/
def tmPlus : TranscriptMapper :=
  { ref := "R1", ac := "NM_1", tx_info := tiPlus, tx_exons := [exonA, exonB],
    strand := 1, cds_start_i := 10, cds_end_i := 100, gc_offset := 100,
    cigar := "50M50N60M", im := fcTriv "50M50N60M" }

/-- The mapper `TranscriptMapper.init fcTriv dbZero "NM_1" "R1"` builds:
its stored strand is the invalid value `0`. -/
def tmZero : TranscriptMapper :=
  { ref := "R1", ac := "NM_1", tx_info := tiZero, tx_exons := [exonA, exonB],
    strand := 0, cds_start_i := 10, cds_end_i := 100, gc_offset := 100,
    cigar := "50M50N60M", im := fcTriv "50M50N60M" }

/-- Claim C6: for every mapper and all integer pairs, transcript→CDS and
CDS→transcript are pure offset arithmetic by `cds_start_i`, and
CDS→transcript composed with transcript→CDS is the exact identity. -/
theorem claim_C6_cds_roundtrip (tm : TranscriptMapper) (rs re cs ce : Int) :
    tm.r_to_c rs re = (rs - tm.cds_start_i, re - tm.cds_start_i) ∧
    tm.c_to_r cs ce = (cs + tm.cds_start_i, ce + tm.cds_start_i) ∧
    tm.c_to_r (tm.r_to_c rs re).1 (tm.r_to_c rs re).2 = (rs, re) := by
  refine ⟨rfl, rfl, ?_⟩
  simp only [TranscriptMapper.r_to_c, TranscriptMapper.c_to_r, Prod.mk.injEq]
  omega

/-- Claim C7: for every mapper and every input interval, genome→CDS is
exactly genome→transcript followed by transcript→CDS, and CDS→genome is
exactly CDS→transcript followed by transcript→genome. -/
theorem claim_C7_compositions (tm : TranscriptMapper) (gs ge cs ce : Int) :
    tm.g_to_c gs ge = (tm.g_to_r gs ge).map (fun p => tm.r_to_c p.1 p.2) ∧
    tm.c_to_g cs ce = tm.r_to_g (tm.c_to_r cs ce).1 (tm.c_to_r cs ce).2 := by
  constructor
  · cases h : tm.g_to_r gs ge <;>
      simp [TranscriptMapper.g_to_c, h, Except.map]
  · rfl

/-- Claim C9: the state of the caller-supplied exon list after
`build_tx_cigar` returns: on strand `-1` every record's `g_cigar` is
replaced in place by its reversed cigar string; on strand `+1` the
records are unchanged. -/
theorem claim_C9_mutation_post_state (exons : List Exon) :
    build_tx_cigar_post exons (-1) =
      exons.map (fun e => { e with g_cigar := reverse_cigar e.g_cigar }) ∧
    build_tx_cigar_post exons 1 = exons := by
  constructor
  · unfold build_tx_cigar_post mutate_exons
    cases exons <;> simp
  · unfold build_tx_cigar_post mutate_exons
    simp

/-- Claim C4, counterexample: with the provider `dbZero`, whose
transcript info carries the strand value `0` (neither `+1` nor `-1`),
construction succeeds and returns the mapper `tmZero` — so the claim
that construction fails for any strand outside `{+1, -1}` is false. -/
theorem claim_C4_counterexample :
    TranscriptMapper.init fcTriv dbZero "NM_1" "R1" = Except.ok tmZero ∧
    tmZero.strand = 0 := by
  constructor <;> rfl

/-- Claim C4, amended: construction succeeds exactly when the provider
returns transcript info and a non-empty exon list; the strand value is
not validated at construction time. -/
theorem claim_C4_construction_condition (from_cigar : String → IntervalMapper)
    (db : DB) (ac ref : String) :
    (∃ tm, TranscriptMapper.init from_cigar db ac ref = Except.ok tm) ↔
      ((db.get_tx_info ac).isSome ∧ db.get_tx_exons ac ref ≠ []) := by
  unfold TranscriptMapper.init
  cases db.get_tx_info ac <;> cases h : db.get_tx_exons ac ref <;> simp [h]

/-- Claim C5: whenever the provider returns no transcript info or an
empty exon list, construction fails with a `UTAError` whose message
names the reference and the accession; no mapper is returned. -/
theorem claim_C5_construction_error (from_cigar : String → IntervalMapper)
    (db : DB) (ac ref : String)
    (h : db.get_tx_info ac = none ∨ db.get_tx_exons ac ref = []) :
    TranscriptMapper.init from_cigar db ac ref =
      Except.error (UTAError.mk (constructionErrorMsg ref ac)) := by
  unfold TranscriptMapper.init
  rcases h with h | h
  · rw [h]
  · rw [h]
    cases db.get_tx_info ac <;> rfl

/-- Claim C5, witness: the empty-exon provider `dbEmpty` makes
construction fail with the message naming reference `R1` and accession
`NM_1`. -/
theorem claim_C5_witness :
    TranscriptMapper.init fcTriv dbEmpty "NM_1" "R1" =
      Except.error (UTAError.mk (constructionErrorMsg "R1" "NM_1")) :=
  claim_C5_construction_error fcTriv dbEmpty "NM_1" "R1" (Or.inr rfl)

/-- Claim C1: on a constructed mapper, `gc_offset` is the genomic start
of the first exon in as-given order; genome→transcript subtracts
`gc_offset` from both bounds, maps reference→target with the extension
flag off, and on strand `-1` reflects the mapped pair through
`tgt_len`; transcript→genome reflects the input first on strand `-1`,
maps target→reference with the extension flag off, and adds `gc_offset`
back to both bounds. -/
theorem claim_C1_genome_transcript_mapping (from_cigar : String → IntervalMapper)
    (db : DB) (ac ref : String) (tm : TranscriptMapper)
    (h : TranscriptMapper.init from_cigar db ac ref = Except.ok tm)
    (gs ge rs re : Int) :
    tm.gc_offset = ((db.get_tx_exons ac ref).headI).g_start_i ∧
    (tm.strand = 1 →
      tm.g_to_r gs ge =
        Except.ok (tm.im.map_ref_to_tgt (gs - tm.gc_offset) (ge - tm.gc_offset) false)) ∧
    (tm.strand = -1 →
      tm.g_to_r gs ge =
        Except.ok
          (tm.im.tgt_len -
             (tm.im.map_ref_to_tgt (gs - tm.gc_offset) (ge - tm.gc_offset) false).2,
           tm.im.tgt_len -
             (tm.im.map_ref_to_tgt (gs - tm.gc_offset) (ge - tm.gc_offset) false).1)) ∧
    (tm.strand = 1 →
      tm.r_to_g rs re =
        Except.ok ((tm.im.map_tgt_to_ref rs re false).1 + tm.gc_offset,
                   (tm.im.map_tgt_to_ref rs re false).2 + tm.gc_offset)) ∧
    (tm.strand = -1 →
      tm.r_to_g rs re =
        Except.ok
          ((tm.im.map_tgt_to_ref (tm.im.tgt_len - re) (tm.im.tgt_len - rs) false).1 +
             tm.gc_offset,
           (tm.im.map_tgt_to_ref (tm.im.tgt_len - re) (tm.im.tgt_len - rs) false).2 +
             tm.gc_offset)) := by
  refine ⟨?_, ?_, ?_, ?_, ?_⟩
  · unfold TranscriptMapper.init at h
    rcases hti : db.get_tx_info ac with _ | ti <;> rw [hti] at h
    · exact absurd h (by simp)
    · rcases hex : db.get_tx_exons ac ref with _ | ⟨e0, rest⟩ <;> rw [hex] at h
      · exact absurd h (by simp)
      · simp only [Except.ok.injEq] at h
        rw [← h]
        simp [List.headI]
  · intro hs
    simp [TranscriptMapper.g_to_r, hs]
  · intro hs
    simp [TranscriptMapper.g_to_r, hs]
  · intro hs
    simp [TranscriptMapper.r_to_g, hs, bind, Except.bind, pure, Except.pure]
  · intro hs
    simp [TranscriptMapper.r_to_g, hs, bind, Except.bind, pure, Except.pure]

/-- Claim C1, witness: the theorem applied to the concretely constructed
mapper `tmPlus` (strand `+1`, first exon starting at `100`) and the
interval `(105, 120)` / `(3, 7)`. -/
theorem claim_C1_witness :
    tmPlus.gc_offset = ((dbPlus.get_tx_exons "NM_1" "R1").headI).g_start_i ∧
    (tmPlus.strand = 1 →
      tmPlus.g_to_r 105 120 =
        Except.ok (tmPlus.im.map_ref_to_tgt (105 - tmPlus.gc_offset) (120 - tmPlus.gc_offset) false)) ∧
    (tmPlus.strand = -1 →
      tmPlus.g_to_r 105 120 =
        Except.ok
          (tmPlus.im.tgt_len -
             (tmPlus.im.map_ref_to_tgt (105 - tmPlus.gc_offset) (120 - tmPlus.gc_offset) false).2,
           tmPlus.im.tgt_len -
             (tmPlus.im.map_ref_to_tgt (105 - tmPlus.gc_offset) (120 - tmPlus.gc_offset) false).1)) ∧
    (tmPlus.strand = 1 →
      tmPlus.r_to_g 3 7 =
        Except.ok ((tmPlus.im.map_tgt_to_ref 3 7 false).1 + tmPlus.gc_offset,
                   (tmPlus.im.map_tgt_to_ref 3 7 false).2 + tmPlus.gc_offset)) ∧
    (tmPlus.strand = -1 →
      tmPlus.r_to_g 3 7 =
        Except.ok
          ((tmPlus.im.map_tgt_to_ref (tmPlus.im.tgt_len - 7) (tmPlus.im.tgt_len - 3) false).1 +
             tmPlus.gc_offset,
           (tmPlus.im.map_tgt_to_ref (tmPlus.im.tgt_len - 7) (tmPlus.im.tgt_len - 3) false).2 +
             tmPlus.gc_offset)) :=
  claim_C1_genome_transcript_mapping fcTriv dbPlus "NM_1" "R1" tmPlus rfl 105 120 3 7

/-- Two strings whose first `n` characters differ are different. -/
lemma String.ne_of_take_ne {s t : String} {n : Nat}
    (h : s.data.take n ≠ t.data.take n) : s ≠ t :=
  fun he => h (by rw [he])

/-- The first three characters of every construction-error message. -/
lemma constructionErrorMsg_take3 (ref ac : String) :
    (constructionErrorMsg ref ac).data.take 3 = ['C', 'o', 'u'] := by
  unfold constructionErrorMsg
  simp only [String.data_append, List.append_assoc]
  rw [List.take_append_of_le_length (by decide)]
  decide

/-- Claim C8: on a mapper whose stored strand is neither `+1` nor `-1`,
genome→transcript and transcript→genome fail with the strand fall-through
`UTAError`s, the genome↔CDS compositions propagate those errors
unchanged, and those error messages differ from every construction-error
message. -/
theorem claim_C8_strand_invariant_error (tm : TranscriptMapper)
    (h1 : tm.strand ≠ 1) (h2 : tm.strand ≠ -1) (gs ge rs re cs ce : Int) :
    tm.g_to_r gs ge = Except.error (UTAError.mk strandErrorMsgGR) ∧
    tm.r_to_g rs re = Except.error (UTAError.mk strandErrorMsgRG) ∧
    tm.g_to_c gs ge = Except.error (UTAError.mk strandErrorMsgGR) ∧
    tm.c_to_g cs ce = Except.error (UTAError.mk strandErrorMsgRG) ∧
    (∀ ref ac : String,
      UTAError.mk strandErrorMsgGR ≠ UTAError.mk (constructionErrorMsg ref ac) ∧
      UTAError.mk strandErrorMsgRG ≠ UTAError.mk (constructionErrorMsg ref ac)) := by
  have hgr : tm.g_to_r gs ge = Except.error (UTAError.mk strandErrorMsgGR) := by
    simp [TranscriptMapper.g_to_r, h1, h2]
  have hrg : ∀ a b : Int, tm.r_to_g a b = Except.error (UTAError.mk strandErrorMsgRG) := by
    intro a b
    simp [TranscriptMapper.r_to_g, h1, h2, bind, Except.bind]
  refine ⟨hgr, hrg rs re, ?_, ?_, ?_⟩
  · simp [TranscriptMapper.g_to_c, hgr, bind, Except.bind]
  · simp [TranscriptMapper.c_to_g, hrg]
  · intro ref ac
    constructor
    · intro he
      injection he with he
      exact String.ne_of_take_ne (t := constructionErrorMsg ref ac)
        (by rw [constructionErrorMsg_take3]
            simp only [strandErrorMsgGR, String.data_append, List.append_assoc]
            rw [List.take_append_of_le_length (by decide)]
            decide) he
    · intro he
      injection he with he
      exact String.ne_of_take_ne (t := constructionErrorMsg ref ac)
        (by rw [constructionErrorMsg_take3]
            simp only [strandErrorMsgRG, String.data_append, List.append_assoc]
            rw [List.take_append_of_le_length (by decide)]
            decide) he

/-- Claim C8, witness: the theorem applied to the mapper `tmZero`, whose
stored strand is `0`, at concrete intervals. -/
theorem claim_C8_witness :
    tmZero.g_to_r 105 120 = Except.error (UTAError.mk strandErrorMsgGR) ∧
    tmZero.r_to_g 3 7 = Except.error (UTAError.mk strandErrorMsgRG) ∧
    tmZero.g_to_c 105 120 = Except.error (UTAError.mk strandErrorMsgGR) ∧
    tmZero.c_to_g 2 9 = Except.error (UTAError.mk strandErrorMsgRG) ∧
    (∀ ref ac : String,
      UTAError.mk strandErrorMsgGR ≠ UTAError.mk (constructionErrorMsg ref ac) ∧
      UTAError.mk strandErrorMsgRG ≠ UTAError.mk (constructionErrorMsg ref ac)) :=
  claim_C8_strand_invariant_error tmZero (by decide) (by decide) 105 120 3 7 2 9

/-- Modelled from the spec (§4.1 result clause), for comparison with
`build_tx_cigar`: the (possibly reversed) operation string of the first
exon followed, for every subsequent exon in input order, by the intron
gap token `<g>N` with `g` = that exon's genomic start minus the previous
exon's genomic end, and then that exon's (possibly reversed) operation
string.  Stated as a fold over the list of consecutive exon pairs. -/
def spec_built_cigar (exons : List Exon) (strand : Int) : String :=
  let cig := fun e : Exon => if strand = -1 then reverse_cigar e.g_cigar else e.g_cigar
  match exons with
  | [] => ""
  | e0 :: rest =>
    cig e0 ++
      (((e0 :: rest).zip rest).map
          (fun pe => toString (pe.2.g_start_i - pe.1.g_end_i) ++ "N" ++ cig pe.2)).foldr
        (· ++ ·) ""

/-- The intron/exon loop of `build_tx_cigar` equals the fold over
consecutive pairs. -/
lemma tx_cigar_tail_eq (prev : Exon) (rest : List Exon) :
    tx_cigar_tail prev rest =
      (((prev :: rest).zip rest).map
          (fun pe => toString (pe.2.g_start_i - pe.1.g_end_i) ++ "N" ++ pe.2.g_cigar)).foldr
        (· ++ ·) "" := by
  induction rest generalizing prev with
  | nil => rfl
  | cons e r ih =>
    simp only [tx_cigar_tail, List.zip_cons_cons, List.map_cons, List.foldr_cons, ih e]

/-- The intron/exon loop of `build_tx_cigar` on a list whose cigar
strings have been rewritten by `t` equals the fold over the original
consecutive pairs with `t` applied to each cigar. -/
lemma tx_cigar_tail_map (t : String → String) (prev : Exon) (rest : List Exon) :
    tx_cigar_tail { prev with g_cigar := t prev.g_cigar }
        (rest.map (fun e => { e with g_cigar := t e.g_cigar })) =
      (((prev :: rest).zip rest).map
          (fun pe => toString (pe.2.g_start_i - pe.1.g_end_i) ++ "N" ++ t pe.2.g_cigar)).foldr
        (· ++ ·) "" := by
  induction rest generalizing prev with
  | nil => rfl
  | cons e r ih =>
    simp only [tx_cigar_tail, List.zip_cons_cons, List.map_cons, List.foldr_cons, ih e]

/-- Claim C2: for every non-empty exon list and any strand,
`build_tx_cigar` returns exactly the spec's concatenation — first exon's
(possibly reversed) cigar, then for each later exon the intron gap token
followed by its (possibly reversed) cigar. -/
theorem claim_C2_cigar_concatenation (exons : List Exon) (strand : Int)
    (h : exons ≠ []) :
    build_tx_cigar exons strand = some (spec_built_cigar exons strand) := by
  match exons with
  | [] => exact absurd rfl h
  | e0 :: rest =>
    by_cases hs : strand = -1
    · subst hs
      simp only [build_tx_cigar, mutate_exons, List.map_cons,
        spec_built_cigar, Option.some.injEq, eq_self_iff_true, if_true, ite_true]
      rw [tx_cigar_tail_map reverse_cigar e0 rest]
    · simp only [build_tx_cigar, mutate_exons, if_neg hs, spec_built_cigar,
        Option.some.injEq, if_neg hs]
      rw [tx_cigar_tail_eq]

/-- Claim C2, witness: the spec example — exons with genomic spans
`[100,150)` and `[200,260)` on strand `+1` build to the cigar with the
intron token `50N` (= `200 - 150`) between the two exon strings. -/
theorem claim_C2_witness :
    ([exonA, exonB] : List Exon) ≠ [] ∧
    build_tx_cigar [exonA, exonB] 1 = some ("50M" ++ "50N" ++ "60M") := by
  refine ⟨by simp, ?_⟩
  rw [claim_C2_cigar_concatenation [exonA, exonB] 1 (by simp)]
  decide

/-- An operation letter is not a digit. -/
lemma isCigarOp_not_digit {c : Char} (h : isCigarOp c = true) : c.isDigit = false := by
  simp only [isCigarOp, Bool.or_eq_true, decide_eq_true_eq] at h
  rcases h with (((h | h) | h) | h) | h <;> subst h <;> decide

/-- A well-formed `<length><op>` token: a non-empty run of digits
followed by one operation letter. -/
def IsCigarToken (t : List Char) : Prop :=
  ∃ ds op, t = ds ++ [op] ∧ ds ≠ [] ∧ (∀ d ∈ ds, d.isDigit = true) ∧ isCigarOp op = true

/-- Every token the scanner emits is well-formed, for any all-digit
pending accumulator. -/
lemma cigarFindAllAux_tokens (l : List Char) :
    ∀ ds : List Char, (∀ d ∈ ds, d.isDigit = true) →
      ∀ t ∈ cigarFindAllAux ds l, IsCigarToken t := by
  induction l with
  | nil =>
    intro ds _ t ht
    simp [cigarFindAllAux] at ht
  | cons c rest ih =>
    intro ds hds t ht
    rw [cigarFindAllAux] at ht
    by_cases hd : c.isDigit
    · rw [if_pos hd] at ht
      refine ih (c :: ds) ?_ t ht
      intro d hd'
      rcases List.mem_cons.mp hd' with h | h
      · rw [h]; exact hd
      · exact hds d h
    · rw [if_neg hd] at ht
      by_cases hop : isCigarOp c && !ds.isEmpty
      · rw [if_pos hop] at ht
        rcases List.mem_cons.mp ht with h | h
        · subst h
          rcases Bool.and_eq_true _ _ |>.mp hop with ⟨hop1, hop2⟩
          refine ⟨ds.reverse, c, rfl, ?_, ?_, hop1⟩
          · intro hrev
            rw [List.reverse_eq_nil_iff] at hrev
            subst hrev
            simp at hop2
          · intro d hd'
            exact hds d (List.mem_reverse.mp hd')
        · exact ih [] (by simp) t h
      · rw [if_neg hop] at ht
        exact ih [] (by simp) t ht

/-- Scanning digits-then-letter at the head: the scanner emits the
pending accumulator (reversed) plus this token, and restarts fresh. -/
lemma cigarFindAllAux_parse (ds : List Char) :
    ∀ acc : List Char, ∀ op : Char, ∀ rest : List Char,
      (∀ d ∈ ds, d.isDigit = true) → isCigarOp op = true →
      (acc ≠ [] ∨ ds ≠ []) →
      cigarFindAllAux acc (ds ++ op :: rest) =
        (acc.reverse ++ ds ++ [op]) :: cigarFindAllAux [] rest := by
  induction ds with
  | nil =>
    intro acc op rest _ hop hne
    have hacc : acc ≠ [] := by
      rcases hne with h | h
      · exact h
      · exact absurd rfl h
    rw [List.nil_append, cigarFindAllAux, if_neg (by rw [isCigarOp_not_digit hop]; exact Bool.false_ne_true),
      if_pos (by rw [hop, List.isEmpty_eq_false_iff_exists_mem.mpr]; · rfl
                 · rcases List.exists_mem_of_ne_nil acc hacc with ⟨x, hx⟩; exact ⟨x, hx⟩)]
    simp
  | cons d ds' ih =>
    intro acc op rest hds hop _
    rw [List.cons_append, cigarFindAllAux, if_pos (hds d (List.mem_cons_self d ds')),
      ih (d :: acc) op rest (fun x hx => hds x (List.mem_cons_of_mem d hx)) hop
        (Or.inl (List.cons_ne_nil d acc))]
    simp

/-- Re-parsing the concatenation of well-formed tokens recovers exactly
those tokens. -/
lemma cigarFindAllAux_flatten (ts : List (List Char))
    (h : ∀ t ∈ ts, IsCigarToken t) :
    cigarFindAllAux [] ts.flatten = ts := by
  induction ts with
  | nil => rfl
  | cons t ts' ih =>
    obtain ⟨ds, op, hteq, hne, hds, hop⟩ := h t (List.mem_cons_self t ts')
    rw [List.flatten_cons, hteq, List.append_assoc, List.singleton_append,
      cigarFindAllAux_parse ds [] op _ hds hop (Or.inr hne),
      ih (fun u hu => h u (List.mem_cons_of_mem t hu))]
    simp

/-- Claim C3: on strand `+1` the builder leaves every per-exon cigar
string unchanged; on strand `-1` it replaces each one with
`reverse_cigar`, and `reverse_cigar` is exactly token reversal — the
token list of the reversed string is the reverse of the original token
list, each token unchanged. -/
theorem claim_C3_strand_token_reversal (exons : List Exon) (c : String) :
    mutate_exons exons 1 = exons ∧
    (mutate_exons exons (-1)).map Exon.g_cigar =
      exons.map (fun e => reverse_cigar e.g_cigar) ∧
    cigarTokens (reverse_cigar c) = (cigarTokens c).reverse := by
  refine ⟨by simp [mutate_exons], ?_, ?_⟩
  · simp [mutate_exons, List.map_map, Function.comp]
  · show cigarFindAllAux [] (String.mk ((cigarTokens c).reverse).flatten).data =
      (cigarTokens c).reverse
    exact cigarFindAllAux_flatten _
      (fun t ht =>
        cigarFindAllAux_tokens c.data [] (by simp) t (List.mem_reverse.mp ht))

/-- `t` occurs contiguously inside `s`. -/
def strContains (s t : String) : Prop :=
  ∃ l r, s.data = l ++ t.data ++ r

/-- A string contains itself. -/
lemma strContains_refl (t : String) : strContains t t :=
  ⟨[], [], by simp⟩

/-- Containment is preserved by appending on the left. -/
lemma strContains_append_right (a s t : String) (h : strContains s t) :
    strContains (a ++ s) t := by
  obtain ⟨l, r, hl⟩ := h
  exact ⟨a.data ++ l, r, by rw [String.data_append, hl]; simp⟩

/-- Containment is preserved by appending on the right. -/
lemma strContains_append_left (s b t : String) (h : strContains s t) :
    strContains (s ++ b) t := by
  obtain ⟨l, r, hl⟩ := h
  exact ⟨l, r ++ b.data, by rw [String.data_append, hl]; simp⟩

/-- The intron-gap token of any adjacent pair occurring anywhere in the
remainder list appears in the loop's output. -/
lemma tok_in_tx_cigar_tail (l1 : List Exon) :
    ∀ (prev a b : Exon) (l2 : List Exon),
      strContains (tx_cigar_tail prev (l1 ++ a :: b :: l2))
        (toString (b.g_start_i - a.g_end_i) ++ "N") := by
  induction l1 with
  | nil =>
    intro prev a b l2
    show strContains
      (toString (a.g_start_i - prev.g_end_i) ++ "N" ++ a.g_cigar ++
        (toString (b.g_start_i - a.g_end_i) ++ "N" ++ b.g_cigar ++ tx_cigar_tail b l2)) _
    refine strContains_append_right _ _ _ ?_
    exact strContains_append_left _ _ _ (strContains_append_left _ _ _ (strContains_refl _))
  | cons e l1' ih =>
    intro prev a b l2
    show strContains
      (toString (e.g_start_i - prev.g_end_i) ++ "N" ++ e.g_cigar ++
        tx_cigar_tail e (l1' ++ a :: b :: l2)) _
    exact strContains_append_right _ _ _ (ih e a b l2)

/-- Claim C10: for any exon list containing an adjacent pair whose second
exon starts before the first one ends, `build_tx_cigar` still succeeds
on either strand, and its result contains the negative-length intron
token for that pair; malformed exon ordering is never rejected. -/
theorem claim_C10_negative_intron (pre post : List Exon) (a b : Exon)
    (strand : Int) (h : b.g_start_i < a.g_end_i) :
    ∃ s, build_tx_cigar (pre ++ a :: b :: post) strand = some s ∧
      strContains s (toString (b.g_start_i - a.g_end_i) ++ "N") ∧
      b.g_start_i - a.g_end_i < 0 := by
  have hneg : b.g_start_i - a.g_end_i < 0 := by omega
  by_cases hs : strand = -1
  · subst hs
    rw [build_tx_cigar, mutate_exons, if_pos rfl]
    cases pre with
    | nil =>
      refine ⟨_, rfl, ?_, hneg⟩
      refine strContains_append_right _ _ _ ?_
      show strContains
        (toString (b.g_start_i - a.g_end_i) ++ "N" ++ reverse_cigar b.g_cigar ++
          tx_cigar_tail { b with g_cigar := reverse_cigar b.g_cigar }
            (post.map (fun e => { e with g_cigar := reverse_cigar e.g_cigar }))) _
      exact strContains_append_left _ _ _ (strContains_append_left _ _ _ (strContains_refl _))
    | cons p pre' =>
      refine ⟨_, by rw [List.cons_append, List.map_cons], ?_, hneg⟩
      refine strContains_append_right _ _ _ ?_
      have hmap : (pre' ++ a :: b :: post).map
          (fun e => { e with g_cigar := reverse_cigar e.g_cigar }) =
          pre'.map (fun e => { e with g_cigar := reverse_cigar e.g_cigar }) ++
            { a with g_cigar := reverse_cigar a.g_cigar } ::
              { b with g_cigar := reverse_cigar b.g_cigar } ::
                post.map (fun e => { e with g_cigar := reverse_cigar e.g_cigar }) := by
        simp
      rw [hmap]
      exact tok_in_tx_cigar_tail _ _ _ _ _
  · rw [build_tx_cigar, mutate_exons, if_neg hs]
    cases pre with
    | nil =>
      refine ⟨_, rfl, ?_, hneg⟩
      refine strContains_append_right _ _ _ ?_
      show strContains
        (toString (b.g_start_i - a.g_end_i) ++ "N" ++ b.g_cigar ++ tx_cigar_tail b post) _
      exact strContains_append_left _ _ _ (strContains_append_left _ _ _ (strContains_refl _))
    | cons p pre' =>
      refine ⟨_, by rw [List.cons_append], ?_, hneg⟩
      exact strContains_append_right _ _ _ (tok_in_tx_cigar_tail _ _ _ _ _)

/-- Claim C10, witness: exons with genomic spans `[100,150)` and
`[140,200)` (the second starting inside the first) on strand `+1` build
successfully to a string containing the token `-10N`. -/
theorem claim_C10_witness :
    ∃ s, build_tx_cigar ([] ++ exonA :: exonOverlap :: []) 1 = some s ∧
      strContains s (toString (exonOverlap.g_start_i - exonA.g_end_i) ++ "N") ∧
      exonOverlap.g_start_i - exonA.g_end_i < 0 :=
  claim_C10_negative_intron [] [] exonA exonOverlap 1 (by decide)

end Uta
